import Mathlib

/-!
Shallow embedding of the authorization, account-security and moderation-workflow
core of the CSSECDV_MCO repository (an Express/Mongoose forum application).

Sources embedded:
  * `src/middleware/auth.js` — credential policy (lockout, password history) and
    the authorization predicates (`canModeratePost`, `canEditOrDelete`,
    `checkPostPermission`, `checkResourcePermission`, `checkAccess`).
  * `src/app.js` — the `POST /login` flow.
  * `src/moderation-routes.js` — `requireRole`, report filing, report listing,
    report handling, escalation, ban/unban/restrict routes.
  * `src/unnamed/part_004` — the `activeRestriction` query used to decide
    whether an account is currently restricted.

Conventions: Mongo documents become Lean structures; object ids become `Nat`;
timestamps become `Int` milliseconds since the epoch (`new Date()` is the
explicit `now` parameter); `Date.setHours(getHours()+h)` becomes
`now + h * 3600000`; nullable fields become `Option`; collections become
`List`s inside a single `St` state record; `Model.findById`/`findOne` become
`List.find?`; `updateMany`/`findByIdAndUpdate` become `List.map` with a
matching guard.  `bcrypt.compare` is an opaque comparison function passed as a
parameter.  HTTP responses are abstracted by the `Resp` inductive.
-/

namespace Mco

/-- Roles, from the `enum ['administrator','manager','user']` in the user
schema. -/
inductive Role where
  | user
  | manager
  | administrator
deriving DecidableEq, Repr

/-- Report statuses, from the `enum` in `moderation-schemas.js`. -/
inductive RStatus where
  | pending
  | reviewed
  | resolved
  | dismissed
  | escalated
deriving DecidableEq, Repr

/-- Restriction types, from the `enum` in `moderation-schemas.js`. -/
inductive RType where
  | warning
  | temporary_ban
  | permanent_ban
deriving DecidableEq, Repr

/-- The string stored for a status in Mongo (the `status` field is a plain
string; `.sort({status: 1})` compares these strings). -/
def statusStr : RStatus → String
  | .pending => "pending"
  | .reviewed => "reviewed"
  | .resolved => "resolved"
  | .dismissed => "dismissed"
  | .escalated => "escalated"

/-- A user document (the fields used by the moderation/authorization code). -/
structure UserRec where
  id : Nat
  role : Role
  managedTags : List String := []
deriving DecidableEq, Repr

/-- A post document (the fields used by the moderation/authorization code). -/
structure PostRec where
  id : Nat
  user : Nat
  postTag : String
  isHidden : Bool := false
  hiddenReason : String := ""
  hiddenBy : Option Nat := none
  hiddenAt : Option Int := none
  isDeleted : Bool := false
  deletedBy : Option Nat := none
  deletedAt : Option Int := none
  deletionReason : String := ""
deriving DecidableEq, Repr

/-- A report document (`reportSchema`). -/
structure ReportRec where
  id : Nat
  post : Nat
  reportedBy : Nat
  reason : String
  description : String
  status : RStatus := .pending
  handledBy : Option Nat := none
  adminNotes : String := ""
  createdAt : Int := 0
  resolvedAt : Option Int := none
  escalationReason : Option String := none
  escalatedBy : Option Nat := none
  escalatedAt : Option Int := none
deriving DecidableEq, Repr

/-- A user-restriction document (`userRestrictionSchema`). -/
structure RestrictionRec where
  user : Nat
  restrictedBy : Nat
  restrictionType : RType
  reason : String
  startDate : Int
  endDate : Option Int := none
  isActive : Bool := true
deriving DecidableEq, Repr

/-- A post-moderation audit document (`postModerationSchema`). -/
structure PMRec where
  post : Nat
  moderatedBy : Nat
  action : String
  reason : String
deriving DecidableEq, Repr

/-- An activity-log document (`activityLogSchema`), reduced to the fields the
claims inspect: the acting user (null for unauthenticated actors) and the
action code. -/
structure LogEntry where
  user : Option Nat
  action : String
deriving DecidableEq, Repr

/-- The persistent store: the Mongo collections touched by the embedded
routes. -/
structure St where
  users : List UserRec := []
  posts : List PostRec := []
  reports : List ReportRec := []
  restrictions : List RestrictionRec := []
  postModerations : List PMRec := []
  activityLog : List LogEntry := []
deriving DecidableEq, Repr

/-- HTTP-level outcomes, abstracted from `res.status(...).json/render/send`.
`jsonError` is a 200 response whose JSON body carries an `error` field (the
duplicate-report path uses `res.json({error})` with no status call). -/
inductive Resp where
  | ok
  | jsonError (msg : String)
  | badRequest (msg : String)
  | unauthorized
  | forbidden
  | notFound
  | serverError
deriving DecidableEq, Repr

/-- `User.findById`. -/
def findUser (users : List UserRec) (uid : Nat) : Option UserRec :=
  users.find? (fun u => u.id == uid)

/-- `Post.findById`. -/
def findPost (posts : List PostRec) (pid : Nat) : Option PostRec :=
  posts.find? (fun p => p.id == pid)

/-- `Report.findById`. -/
def findReport (reports : List ReportRec) (rid : Nat) : Option ReportRec :=
  reports.find? (fun r => r.id == rid)

/-- `Post.findByIdAndUpdate`. -/
def updatePost (posts : List PostRec) (pid : Nat) (f : PostRec → PostRec) :
    List PostRec :=
  posts.map (fun p => if p.id == pid then f p else p)

/-- `Report.findByIdAndUpdate`. -/
def updateReport (reports : List ReportRec) (rid : Nat)
    (f : ReportRec → ReportRec) : List ReportRec :=
  reports.map (fun r => if r.id == rid then f r else r)

/-- `logModerationAction` (moderation-routes.js lines 18-33): looks the actor
up, appends an activity-log row with the action code, and silently does
nothing when the lookup fails (the `catch` block is empty). -/
def logModerationAction (users : List UserRec) (log : List LogEntry)
    (uid : Nat) (action : String) : List LogEntry :=
  match findUser users uid with
  | none => log
  | some _ => log ++ [⟨some uid, action⟩]

/-! Section: Credential policy engine (`src/middleware/auth.js`, `src/app.js`) -/

/-- One entry of a user's `passwordHistory` array. -/
structure PassEntry where
  password : String
  changedAt : Int
deriving DecidableEq, Repr

/-- The account-security fields of a user document (the fields the login and
password-change flows touch). -/
structure Account where
  password : String
  failedLoginAttempts : Nat := 0
  accountLockedUntil : Option Int := none
  passwordHistory : List PassEntry := []
  lastLogin : Option Int := none
  previousLogin : Option Int := none
  passwordChangedAt : Option Int := none
deriving DecidableEq, Repr

/-- `isAccountLocked` (auth.js lines 121-130): locked iff `accountLockedUntil`
is set and strictly in the future. -/
def isAccountLocked (u : Account) (now : Int) : Bool :=
  match u.accountLockedUntil with
  | some t => now < t
  | none => false

/-- `handleFailedLogin` (auth.js lines 132-147): increments the counter; once
it reaches 5 the account is locked until `now + 15 minutes` and a locked
result is returned. Returns the persisted account and the `locked` flag. -/
def handleFailedLogin (u : Account) (now : Int) : Account × Bool :=
  let u := { u with failedLoginAttempts := u.failedLoginAttempts + 1 }
  if u.failedLoginAttempts ≥ 5 then
    ({ u with accountLockedUntil := some (now + 15 * 60 * 1000) }, true)
  else
    (u, false)

/-- `handleSuccessfulLogin` (auth.js lines 149-156). -/
def handleSuccessfulLogin (u : Account) (now : Int) : Account :=
  { u with
    previousLogin := u.lastLogin
    lastLogin := some now
    failedLoginAttempts := 0
    accountLockedUntil := none }

/-- Login outcomes of `POST /login` (app.js lines 245-310) for an account that
exists: locked-rejection, generic credential failure, failure that caused a
lock, or success. -/
inductive LoginResp where
  | lockedOut
  | invalidCredentials
  | lockedNow
  | success
deriving DecidableEq, Repr

/-- The `POST /login` flow (app.js lines 264-305) for a found account:
the lock check runs first and short-circuits before any password comparison
or counter update; otherwise a failed comparison goes through
`handleFailedLogin` and a successful one through `handleSuccessfulLogin`.
`passwordMatch` stands for the result of `bcrypt.compare`. -/
def loginAttempt (u : Account) (passwordMatch : Bool) (now : Int) :
    Account × LoginResp :=
  if isAccountLocked u now then
    (u, .lockedOut)
  else if ¬ passwordMatch then
    let (u, locked) := handleFailedLogin u now
    if locked then (u, .lockedNow) else (u, .invalidCredentials)
  else
    (handleSuccessfulLogin u now, .success)

/-- `isPasswordReused` (auth.js lines 162-175): false on an empty history,
otherwise true iff the candidate matches some history entry. `compare` stands
for `bcrypt.compare`. -/
def isPasswordReused (compare : String → String → Bool) (u : Account)
    (newPassword : String) : Bool :=
  if u.passwordHistory.length == 0 then
    false
  else
    u.passwordHistory.any (fun oldPass => compare newPassword oldPass.password)

/-- `updatePasswordHistory` (auth.js lines 177-197): pushes the current hash
onto history, trims to the last 5 entries (`slice(-5)`), installs the new hash
and stamps `passwordChangedAt`. -/
def updatePasswordHistory (u : Account) (newHashedPassword : String)
    (now : Int) : Account :=
  let hist := u.passwordHistory ++ [⟨u.password, now⟩]
  let hist := if hist.length > 5 then hist.drop (hist.length - 5) else hist
  { u with
    passwordHistory := hist
    password := newHashedPassword
    passwordChangedAt := some now }

/-! Section: Authorization engine (`src/middleware/auth.js`) -/

/-- `canModeratePost` (auth.js lines 596-616): administrators always may,
plain users never may, managers may iff the post exists and its tag is in
their `managedTags`; a missing user or post fails closed. -/
def canModeratePost (users : List UserRec) (posts : List PostRec)
    (userId postId : Nat) : Bool :=
  match findUser users userId with
  | none => false
  | some u =>
    if u.role = .administrator then true
    else if u.role = .user then false
    else if u.role = .manager then
      match findPost posts postId with
      | none => false
      | some post => u.managedTags.contains post.postTag
    else false

/-- `canEditOrDelete` (auth.js lines 636-653): the resource owner always may;
administrators always may; a manager may when a post id is supplied and
`canModeratePost` grants it; everyone else may not. -/
def canEditOrDelete (users : List UserRec) (posts : List PostRec)
    (userId resourceOwnerId : Nat) (postId : Option Nat) : Bool :=
  match findUser users userId with
  | none => false
  | some u =>
    if userId = resourceOwnerId then true
    else if u.role = .administrator then true
    else
      match postId with
      | some pid => if u.role = .manager then canModeratePost users posts userId pid else false
      | none => false

/-- `checkPostPermission` (auth.js lines 549-567): reads are free; edit and
delete are allowed to the owner, and to a manager whose `managedTags` contain
the post's tag; a missing post fails closed. -/
def checkPostPermission (posts : List PostRec) (u : UserRec)
    (postId : Nat) (action : String) : Bool :=
  match findPost posts postId with
  | none => false
  | some post =>
    if action = "read" then true
    else if action = "edit" ∨ action = "delete" then
      if post.user = u.id then true
      else if u.role = .manager then u.managedTags.contains post.postTag
      else false
    else false

/-- `checkCommentPermission` (auth.js lines 569-579). -/
def checkCommentPermission (action : String) : Bool :=
  if action = "read" then true
  else if action = "edit" ∨ action = "delete" then true
  else false

/-- `checkUserPermission` (auth.js lines 581-590). -/
def checkUserPermission (u : UserRec) (userId : Nat) (action : String) : Bool :=
  if action = "read" then true
  else if action = "edit" then u.id == userId
  else false

/-- `checkResourcePermission` (auth.js lines 533-547): administrators may do
everything; otherwise dispatch on the resource type. -/
def checkResourcePermission (posts : List PostRec) (u : UserRec)
    (resourceType : String) (resourceId : Nat) (action : String) : Bool :=
  if u.role = .administrator then true
  else if resourceType = "POST" then checkPostPermission posts u resourceId action
  else if resourceType = "COMMENT" then checkCommentPermission action
  else if resourceType = "USER" then checkUserPermission u resourceId action
  else false

/-- `checkRole` (auth.js lines 325-333): numeric role hierarchy
administrator(3) > manager(2) > user(1). -/
def roleLevel : Role → Nat
  | .administrator => 3
  | .manager => 2
  | .user => 1

def checkRole (userRole requiredRole : Role) : Bool :=
  roleLevel userRole ≥ roleLevel requiredRole

/-- `canAccessPost` (auth.js lines 355-370): fails closed on a missing post;
administrators may, managers may within their tags, users only their own. -/
def canAccessPost (posts : List PostRec) (u : UserRec) (postId : Nat) : Bool :=
  match findPost posts postId with
  | none => false
  | some post =>
    if u.role = .administrator then true
    else if u.role = .manager then u.managedTags.contains post.postTag
    else post.user == u.id

/-- `canAccessComment` (auth.js lines 372-378). -/
def canAccessComment (u : UserRec) : Bool :=
  if u.role = .administrator then true else true

/-- `canAccessUser` (auth.js lines 380-386). -/
def canAccessUser (u : UserRec) (userId : Nat) : Bool :=
  if u.role = .administrator then true else u.id == userId

/-- `checkResourceAccess` (auth.js lines 336-352). -/
def checkResourceAccess (posts : List PostRec) (u : UserRec)
    (resourceType : String) (resourceId : Nat) : Bool :=
  if resourceType = "POST" then canAccessPost posts u resourceId
  else if resourceType = "COMMENT" then canAccessComment u
  else if resourceType = "USER" then canAccessUser u resourceId
  else true

/-- Result of `checkAccess`: allowed, or denied with the `reason` string the
source puts in its structured result. -/
inductive CAResult where
  | allowed
  | denied (reason : String)
deriving DecidableEq, Repr

/-- `checkAccess` (auth.js lines 256-322), the site-wide access-control
component.  Returns the decision together with the list of activity-log rows
it writes before returning: unauthenticated, insufficient-role and
resource-denied branches each log an `ACCESS_DENIED` row first. -/
def checkAccess (users : List UserRec) (posts : List PostRec)
    (session : Option Nat) (requiredRole : Option Role)
    (resource : Option (String × Nat)) : CAResult × List LogEntry :=
  match session with
  | none => (.denied "NOT_AUTHENTICATED", [⟨none, "ACCESS_DENIED"⟩])
  | some uid =>
    match findUser users uid with
    | none => (.denied "USER_NOT_FOUND", [])
    | some u =>
      let roleFailed : Bool :=
        match requiredRole with
        | some r => ! checkRole u.role r
        | none => false
      if roleFailed then
        (.denied "INSUFFICIENT_ROLE", [⟨some uid, "ACCESS_DENIED"⟩])
      else
        match resource with
        | some (rt, rid) =>
          if checkResourceAccess posts u rt rid then (.allowed, [])
          else (.denied "RESOURCE_ACCESS_DENIED", [⟨some uid, "ACCESS_DENIED"⟩])
        | none => (.allowed, [])

/-! Section: Moderation routes (`src/moderation-routes.js`) -/

/-- Outcome of the `requireRole` middleware (moderation-routes.js lines
36-69): either the request proceeds with the fetched user attached
(`req.currentUser`), or a 401/403 response is sent.  The second component is
the list of activity-log rows the middleware writes — the source writes none
on any branch. -/
inductive Gate where
  | allowed (u : UserRec)
  | denied (status : Nat)
deriving DecidableEq, Repr

def requireRole (users : List UserRec) (session : Option Nat)
    (roles : List Role) : Gate × List LogEntry :=
  match session with
  | none => (.denied 401, [])
  | some uid =>
    match findUser users uid with
    | none => (.denied 401, [])
    | some u =>
      if roles.contains u.role then (.allowed u, [])
      else (.denied 403, [])

/-- A fresh id for a created document (Mongo generates object ids; any id not
already present is faithful). -/
def freshId (reports : List ReportRec) : Nat :=
  (reports.map (fun r => r.id)).foldr max 0 + 1

/-- `POST /report/post/:postId` (moderation-routes.js lines 79-117): 404 when
the post is missing; a JSON error when `Report.findOne({post, reportedBy})`
finds *any* earlier report by this reporter on this post (no status filter);
otherwise creates a report whose status defaults to `pending` and logs. -/
def fileReport (st : St) (postId userId : Nat) (reason description : String)
    (now : Int) : St × Resp :=
  match findPost st.posts postId with
  | none => (st, .notFound)
  | some _ =>
    match st.reports.find? (fun r => r.post == postId && r.reportedBy == userId) with
    | some _ => (st, .jsonError "You have already reported this post")
    | none =>
      let newReport : ReportRec :=
        { id := freshId st.reports
          post := postId
          reportedBy := userId
          reason := reason
          description := description
          createdAt := now }
      ({ st with
          reports := st.reports ++ [newReport]
          activityLog := logModerationAction st.users st.activityLog userId "USER_REPORT" },
        .ok)

/-- The comparator induced by `.sort({status: 1, createdAt: -1})`: ascending
lexicographic order on the stored status string, ties broken by descending
creation time. -/
def reportLE (a b : ReportRec) : Bool :=
  match compare (statusStr a.status) (statusStr b.status) with
  | .lt => true
  | .eq => decide (b.createdAt ≤ a.createdAt)
  | .gt => false

/-- Insertion into a list sorted by `le`. -/
def insertSorted (le : ReportRec → ReportRec → Bool) (x : ReportRec) :
    List ReportRec → List ReportRec
  | [] => [x]
  | y :: ys => if le x y then x :: y :: ys else y :: insertSorted le x ys

/-- A stable sort by `le` (models the database sort). -/
def sortReports (le : ReportRec → ReportRec → Bool) :
    List ReportRec → List ReportRec
  | [] => []
  | x :: xs => insertSorted le x (sortReports le xs)

/-- `GET /manager/reports` (moderation-routes.js lines 124-156), after
`requireRole(['manager','administrator'])`: a manager's query is restricted to
reports whose post id lies under their managed tags (computed by first listing
the managed post ids and then filtering reports to that set); an administrator
gets the unfiltered collection.  Either list is then sorted with
`{status: 1, createdAt: -1}`. -/
def listReports (st : St) (currentUser : UserRec) : List ReportRec :=
  let base :=
    if currentUser.role = .manager then
      let managedPostIds :=
        (st.posts.filter (fun p => currentUser.managedTags.contains p.postTag)).map
          (fun p => p.id)
      st.reports.filter (fun r => managedPostIds.contains r.post)
    else
      st.reports
  sortReports reportLE base

/-- `POST /manager/reports/:reportId/handle` (moderation-routes.js lines
205-378), after `requireRole(['manager','administrator'])`.  `hours` is the
parsed `parseInt(req.body.hours)` (`none` models a missing or non-numeric
field, which with `parseInt(...) || 48` falls back to 48).  Note what the
source does *not* do: it never reads `report.status`, and the `restrict_user`
branch clamps the duration with `Math.min(restrictHours, 48)` for every
caller. -/
def handle (st : St) (reportId sessionUserId : Nat) (action notes : String)
    (hours : Option Int) (now : Int) : St × Resp :=
  if action = "" ∨ notes = "" then (st, .badRequest "Action and notes are required")
  else
    match findReport st.reports reportId with
    | none => (st, .notFound)
    | some report =>
      match findPost st.posts report.post with
      | none => (st, .notFound)
      | some post =>
        match findUser st.users sessionUserId with
        | none => (st, .serverError)
        | some manager =>
          if manager.role = .manager ∧ ¬ (manager.managedTags.contains post.postTag) then
            (st, .forbidden)
          else if action = "hide_post" then
            let hideReason := if notes = "" then "Violates community guidelines" else notes
            let st : St := { st with
              posts := updatePost st.posts post.id (fun p =>
                { p with
                  isHidden := true
                  hiddenReason := hideReason
                  hiddenBy := some sessionUserId
                  hiddenAt := some now })
              postModerations := st.postModerations ++ [{ post := post.id, moderatedBy := sessionUserId, action := "hidden", reason := notes }]
              reports := updateReport st.reports reportId (fun r =>
                { r with
                  status := .resolved
                  handledBy := some sessionUserId
                  adminNotes := notes
                  resolvedAt := some now }) }
            ({ st with activityLog := logModerationAction st.users st.activityLog sessionUserId "HIDE_POST" }, .ok)
          else if action = "delete_post" then
            let st : St := { st with
              posts := updatePost st.posts post.id (fun p =>
                { p with
                  isDeleted := true
                  deletedBy := some sessionUserId
                  deletedAt := some now
                  deletionReason := if notes = "" then "Removed by moderator" else notes })
              postModerations := st.postModerations ++ [{ post := post.id, moderatedBy := sessionUserId, action := "deleted", reason := notes }]
              reports := updateReport st.reports reportId (fun r =>
                { r with
                  status := .resolved
                  handledBy := some sessionUserId
                  adminNotes := notes
                  resolvedAt := some now }) }
            ({ st with activityLog := logModerationAction st.users st.activityLog sessionUserId "DELETE_POST" }, .ok)
          else if action = "warn_user" then
            let st : St := { st with
              restrictions := st.restrictions ++
                [{ user := post.user
                   restrictedBy := sessionUserId
                   restrictionType := .warning
                   reason := if notes = "" then "Violated community guidelines" else notes
                   startDate := now
                   endDate := none
                   isActive := true }]
              reports := updateReport st.reports reportId (fun r =>
                { r with
                  status := .resolved
                  handledBy := some sessionUserId
                  adminNotes := notes
                  resolvedAt := some now }) }
            ({ st with activityLog := logModerationAction st.users st.activityLog sessionUserId "WARN_USER" }, .ok)
          else if action = "restrict_user" then
            let restrictHours : Int :=
              match hours with
              | none => 48
              | some h => if h = 0 then 48 else h
            let finalHours := min restrictHours 48
            let restrictionEnd := now + finalHours * 3600000
            let st : St := { st with
              restrictions := st.restrictions ++
                [{ user := post.user
                   restrictedBy := sessionUserId
                   restrictionType := .temporary_ban
                   reason := if notes = "" then "Violated community guidelines" else notes
                   startDate := now
                   endDate := some restrictionEnd
                   isActive := true }]
              reports := updateReport st.reports reportId (fun r =>
                { r with
                  status := .resolved
                  handledBy := some sessionUserId
                  adminNotes := notes
                  resolvedAt := some now }) }
            ({ st with activityLog := logModerationAction st.users st.activityLog sessionUserId "RESTRICT_USER" }, .ok)
          else if action = "dismiss" then
            let st : St := { st with
              reports := updateReport st.reports reportId (fun r =>
                { r with
                  status := .dismissed
                  handledBy := some sessionUserId
                  adminNotes := notes
                  resolvedAt := some now }) }
            ({ st with activityLog := logModerationAction st.users st.activityLog sessionUserId "DISMISS_REPORT" }, .ok)
          else
            (st, .badRequest "Invalid action")

/-- `POST /manager/reports/:reportId/escalate` (moderation-routes.js lines
381-412): an empty reason is rejected before any mutation; otherwise the
report — whatever its current status — is stamped `escalated` with the
escalator id, reason and time. -/
def escalate (st : St) (reportId sessionUserId : Nat) (reason : String)
    (now : Int) : St × Resp :=
  if reason = "" then (st, .badRequest "Reason for escalation is required")
  else
    match findReport st.reports reportId with
    | none => (st, .notFound)
    | some _ =>
      let st : St := { st with
        reports := updateReport st.reports reportId (fun r =>
          { r with
              status := .escalated
              escalationReason := some reason
              escalatedBy := some sessionUserId
              escalatedAt := some now }) }
      ({ st with activityLog := logModerationAction st.users st.activityLog sessionUserId "ESCALATE_REPORT" }, .ok)

/-- `POST /admin/users/:userId/ban` (moderation-routes.js lines 419-457):
creates a permanent restriction (`endDate = null`). -/
def banUser (st : St) (userId sessionUserId : Nat) (reason : String)
    (now : Int) : St × Resp :=
  match findUser st.users userId with
  | none => (st, .notFound)
  | some _ =>
    let st : St := { st with
      restrictions := st.restrictions ++
        [{ user := userId
           restrictedBy := sessionUserId
           restrictionType := .permanent_ban
           reason := if reason = "" then "Violated community guidelines" else reason
           startDate := now
           endDate := none
           isActive := true }] }
    ({ st with activityLog := logModerationAction st.users st.activityLog sessionUserId "PERMANENT_BAN" }, .ok)

/-- The `UserRestriction.updateMany({user, isActive:true}, {isActive:false})`
at the heart of `POST /admin/users/:userId/unban` (moderation-routes.js lines
460-479): deactivates every active restriction of the target, touching
nothing else and deleting nothing. -/
def liftAll (restrictions : List RestrictionRec) (userId : Nat) :
    List RestrictionRec :=
  restrictions.map (fun r =>
    if r.user == userId && r.isActive then { r with isActive := false } else r)

/-- `POST /admin/users/:userId/unban` (moderation-routes.js lines 460-479). -/
def unbanUser (st : St) (userId sessionUserId : Nat) : St × Resp :=
  let st : St := { st with restrictions := liftAll st.restrictions userId }
  ({ st with activityLog := logModerationAction st.users st.activityLog sessionUserId "UNBAN_USER" }, .ok)

/-- `POST /manager/users/:userId/restrict` (moderation-routes.js lines
482-541): missing fields → 400; non-positive hours → 400; hours above 48 →
400 *rejection* (`Managers can only restrict users for up to 48 hours`), all
before any lookup or write; otherwise a `temporary_ban` restriction ending at
`now + hours` is created.  `hours = none` models a missing `hours` field. -/
def managerRestrictUser (st : St) (userId : Nat) (hours : Option Int)
    (reason : String) (sessionUserId : Nat) (now : Int) : St × Resp :=
  match hours with
  | none => (st, .badRequest "Hours and reason are required")
  | some hoursNum =>
    if reason = "" then (st, .badRequest "Hours and reason are required")
    else if hoursNum ≤ 0 then (st, .badRequest "Invalid hours value")
    else if hoursNum > 48 then
      (st, .badRequest "Managers can only restrict users for up to 48 hours")
    else
      match findUser st.users userId with
      | none => (st, .notFound)
      | some _ =>
        let endDate := now + hoursNum * 3600000
        let st : St := { st with
          restrictions := st.restrictions ++
            [{ user := userId
               restrictedBy := sessionUserId
               restrictionType := .temporary_ban
               reason := if reason = "" then "Temporary restriction" else reason
               startDate := now
               endDate := some endDate
               isActive := true }] }
        ({ st with activityLog := logModerationAction st.users st.activityLog sessionUserId "RESTRICT_USER" }, .ok)

/-- `POST /admin/users/:userId/restrict` (moderation-routes.js lines 544-597):
identical to the manager route except that there is no 48-hour cap. -/
def adminRestrictUser (st : St) (userId : Nat) (hours : Option Int)
    (reason : String) (sessionUserId : Nat) (now : Int) : St × Resp :=
  match hours with
  | none => (st, .badRequest "Hours and reason are required")
  | some hoursNum =>
    if reason = "" then (st, .badRequest "Hours and reason are required")
    else if hoursNum ≤ 0 then (st, .badRequest "Invalid hours value")
    else
      match findUser st.users userId with
      | none => (st, .notFound)
      | some _ =>
        let endDate := now + hoursNum * 3600000
        let st : St := { st with
          restrictions := st.restrictions ++
            [{ user := userId
               restrictedBy := sessionUserId
               restrictionType := .temporary_ban
               reason := if reason = "" then "Temporary restriction" else reason
               startDate := now
               endDate := some endDate
               isActive := true }] }
        ({ st with activityLog := logModerationAction st.users st.activityLog sessionUserId "RESTRICT_USER" }, .ok)

/-! Section: Restriction effectivity query (`src/unnamed/part_004`) -/

/-- The per-document condition of the `UserRestriction.findOne({user,
isActive: true, $or: [{endDate: null}, {endDate: {$gte: now}}]})` query in
`GET /admin/users` (part_004 lines 352-360): active, and either permanent or
not yet expired at query time. -/
def restrictionInEffect (now : Int) (r : RestrictionRec) : Bool :=
  r.isActive &&
    (match r.endDate with
     | none => true
     | some e => decide (e ≥ now))

/-- The `activeRestriction` lookup itself. -/
def activeRestriction (restrictions : List RestrictionRec) (userId : Nat)
    (now : Int) : Option RestrictionRec :=
  restrictions.find? (fun r => r.user == userId && restrictionInEffect now r)

/-- `userObj.isRestricted = !!activeRestriction`. -/
def isRestricted (restrictions : List RestrictionRec) (userId : Nat)
    (now : Int) : Bool :=
  (activeRestriction restrictions userId now).isSome

/-! Section: Concrete fixtures used by witnesses and counterexamples -/

/-- A manager delegated the `Food` tag (mirrors the seeded `moderator_food`). -/
def mgrFix : UserRec := { id := 2, role := .manager, managedTags := ["Food"] }

def adminFix : UserRec := { id := 9, role := .administrator }

def plainFix : UserRec := { id := 7, role := .user }

/-- A `Food`-tagged post owned by user 3. -/
def foodPostFix : PostRec := { id := 1, user := 3, postTag := "Food" }

/-- A pending report by user 4 against `foodPostFix`. -/
def reportPendingFix : ReportRec :=
  { id := 1, post := 1, reportedBy := 4, reason := "spam", description := "d" }

/-- The same report after resolution. -/
def reportResolvedFix : ReportRec := { reportPendingFix with status := .resolved }

def stPendingFix : St :=
  { users := [mgrFix, adminFix, plainFix], posts := [foodPostFix],
    reports := [reportPendingFix] }

def stResolvedFix : St :=
  { users := [mgrFix, adminFix, plainFix], posts := [foodPostFix],
    reports := [reportResolvedFix] }

/-- A pending report older than a dismissed one, for the sort-order check. -/
def reportPendingOld : ReportRec :=
  { id := 2, post := 1, reportedBy := 5, reason := "spam", description := "d",
    createdAt := 5 }

def reportDismissedNew : ReportRec :=
  { id := 3, post := 1, reportedBy := 6, reason := "spam", description := "d",
    status := .dismissed, createdAt := 10 }

def stSortFix : St :=
  { users := [mgrFix, adminFix, plainFix], posts := [foodPostFix],
    reports := [reportPendingOld, reportDismissedNew] }

/-- An account with four failed attempts, one short of lockout. -/
def acctFourFails : Account := { password := "h", failedLoginAttempts := 4 }

/-- The account `acctFourFails` becomes after a fifth failure at time 0. -/
def acctLockedFix : Account :=
  { password := "h", failedLoginAttempts := 5, accountLockedUntil := some 900000 }

/-- A temporary ban that expired at time 50 but was never deactivated. -/
def expiredBanFix : RestrictionRec :=
  { user := 4, restrictedBy := 9, restrictionType := .temporary_ban,
    reason := "r", startDate := 0, endDate := some 50, isActive := true }

/-- An active restriction of user 4 and an already-inactive one, for `liftAll`. -/
def activeBanFix : RestrictionRec :=
  { user := 4, restrictedBy := 9, restrictionType := .permanent_ban,
    reason := "r", startDate := 0, endDate := none, isActive := true }

def inactiveBanFix : RestrictionRec := { activeBanFix with isActive := false }

/-! Section: Theorems -/

/-- Claim C10: `isPasswordReused` consults only the `passwordHistory` list, never
the account's current `password` hash: on an account with an empty history the
candidate is reported as not reused no matter what, and in general the result
depends only on the history field, so two accounts with the same history but
different current passwords get the same answer. -/
theorem isPasswordReused_ignores_current_password
    (compare : String → String → Bool) (u : Account) (candidate : String) :
    (u.passwordHistory = [] → isPasswordReused compare u candidate = false) ∧
    (∀ v : Account, v.passwordHistory = u.passwordHistory →
      isPasswordReused compare v candidate = isPasswordReused compare u candidate) := by
  constructor
  · intro h
    simp [isPasswordReused, h]
  · intro v hv
    simp only [isPasswordReused, hv]

/-- Witness for C10: an account that has never changed its password (empty
history); the candidate is its current password and the comparison function
does match it, yet `isPasswordReused` answers `false`. -/
theorem isPasswordReused_ignores_current_password_witness :
    (fun a b => a == b) "secret" (Account.mk "secret" 0 none [] none none none).password = true ∧
    isPasswordReused (fun a b => a == b) (Account.mk "secret" 0 none [] none none none) "secret" = false :=
  ⟨by decide,
   (isPasswordReused_ignores_current_password (fun a b => a == b)
     (Account.mk "secret" 0 none [] none none none) "secret").1 rfl⟩

/-- Claim C5: `handleFailedLogin` always increments the failed-attempt counter;
when the counter reaches 5 the account is locked until exactly `now + 15`
minutes (900000 ms) and a locked result is returned; and a further failed
login attempt made while the account is locked is rejected by the lock check
before `handleFailedLogin` runs, so it leaves the account — in particular the
lockout window — unchanged. -/
theorem lockout_policy (u : Account) (now : Int) :
    ((handleFailedLogin u now).1.failedLoginAttempts = u.failedLoginAttempts + 1) ∧
    (u.failedLoginAttempts = 4 →
      (handleFailedLogin u now).1.accountLockedUntil = some (now + 15 * 60 * 1000) ∧
      (handleFailedLogin u now).2 = true) ∧
    (isAccountLocked u now = true → loginAttempt u false now = (u, .lockedOut)) := by
  refine ⟨?_, ?_, ?_⟩
  · simp only [handleFailedLogin]
    split <;> rfl
  · intro h4
    simp [handleFailedLogin, h4]
  · intro hlock
    simp [loginAttempt, hlock]

/-- Witness for C5: starting from four failures, the fifth failure at time 0
locks until 900000 ms; a sixth failed attempt at time 2000, while locked,
returns the account unchanged. -/
theorem lockout_policy_witness :
    ((handleFailedLogin acctFourFails 0).1.accountLockedUntil = some (0 + 15 * 60 * 1000) ∧
      (handleFailedLogin acctFourFails 0).2 = true) ∧
    loginAttempt acctLockedFix false 2000 = (acctLockedFix, .lockedOut) :=
  ⟨(lockout_policy acctFourFails 0).2.1 rfl,
   (lockout_policy acctLockedFix 2000).2.2 (by decide)⟩

/-- Claim C9: `liftAll` (the `updateMany` behind unban) deactivates every active
restriction of the target, deletes nothing (the collection keeps its length,
and records that were not an active restriction of the target pass through
unchanged), and is idempotent: a second application, and more generally an
application to an account with no active restrictions, changes nothing and
creates nothing. -/
theorem liftAll_policy (rs : List RestrictionRec) (uid : Nat) :
    ((liftAll rs uid).length = rs.length) ∧
    (∀ r ∈ liftAll rs uid, r.user = uid → r.isActive = false) ∧
    (∀ r ∈ rs, ¬ (r.user = uid ∧ r.isActive = true) → r ∈ liftAll rs uid) ∧
    (liftAll (liftAll rs uid) uid = liftAll rs uid) ∧
    ((∀ r ∈ rs, r.user = uid → r.isActive = false) → liftAll rs uid = rs) := by
  refine ⟨by simp [liftAll], ?_, ?_, ?_, ?_⟩
  · intro r hr hru
    simp only [liftAll, List.mem_map] at hr
    obtain ⟨s, _, hs⟩ := hr
    by_cases h : s.user == uid && s.isActive
    · rw [if_pos h] at hs
      subst hs
      rfl
    · rw [if_neg h] at hs
      simp only [Bool.and_eq_true, beq_iff_eq] at h
      rw [← hs] at hru ⊢
      rcases Bool.eq_false_or_eq_true s.isActive with ht | hf
      · exact absurd ⟨hru, ht⟩ h
      · exact hf
  · intro r hr hna
    simp only [liftAll, List.mem_map]
    refine ⟨r, hr, ?_⟩
    rw [if_neg]
    simp only [Bool.and_eq_true, beq_iff_eq]
    exact hna
  · induction rs with
    | nil => rfl
    | cons x xs ih =>
      simp only [liftAll, List.map_cons] at ih ⊢
      congr 1
      by_cases h : x.user == uid && x.isActive
      · rw [if_pos h]
        rw [if_neg (by simp)]
      · rw [if_neg h, if_neg h]
  · intro hall
    induction rs with
    | nil => rfl
    | cons x xs ih =>
      simp only [liftAll, List.map_cons]
      have hx : ¬ (x.user == uid && x.isActive) := by
        intro hc
        simp only [Bool.and_eq_true, beq_iff_eq] at hc
        have := hall x (by simp) hc.1
        rw [this] at hc
        exact Bool.false_ne_true hc.2
      rw [if_neg hx]
      have : liftAll xs uid = xs := ih (fun r hr => hall r (List.mem_cons_of_mem x hr))
      simp only [liftAll] at this
      rw [this]

/-- Witness for C9: on a list holding one active restriction of user 4 and one
inactive one, applying `liftAll` twice equals applying it once, and applying
it to the already-deactivated output changes nothing. -/
theorem liftAll_policy_witness :
    liftAll (liftAll [activeBanFix, inactiveBanFix] 4) 4 =
      liftAll [activeBanFix, inactiveBanFix] 4 ∧
    liftAll [inactiveBanFix] 4 = [inactiveBanFix] :=
  ⟨(liftAll_policy [activeBanFix, inactiveBanFix] 4).2.2.2.1,
   (liftAll_policy [inactiveBanFix] 4).2.2.2.2 (by decide)⟩

/-- Claim C7: The `activeRestriction` query marks an account restricted exactly
when some restriction of that account is active and either permanent
(`endDate = null`) or not yet past its `endDate` at query time; consequently
an account whose only restriction is a temporary ban whose `endDate` already
passed — with `isActive` still `true` — is reported as not restricted: expiry
is decided at query time. -/
theorem restriction_in_effect_iff (rs : List RestrictionRec) (uid : Nat)
    (now : Int) :
    (isRestricted rs uid now = true ↔
      ∃ r ∈ rs, r.user = uid ∧ r.isActive = true ∧
        (r.endDate = none ∨ ∃ e, r.endDate = some e ∧ now ≤ e)) ∧
    (∀ r : RestrictionRec, ∀ e : Int, r.user = uid → r.isActive = true →
      r.endDate = some e → e < now → isRestricted [r] uid now = false) := by
  constructor
  · simp only [isRestricted, activeRestriction, List.find?_isSome,
      Bool.and_eq_true, beq_iff_eq, restrictionInEffect]
    constructor
    · rintro ⟨r, hr, ⟨hu, ha, hend⟩⟩
      refine ⟨r, hr, hu, ha, ?_⟩
      cases he : r.endDate with
      | none => exact Or.inl rfl
      | some e =>
        rw [he] at hend
        simp only [decide_eq_true_eq, ge_iff_le] at hend
        exact Or.inr ⟨e, rfl, hend⟩
    · rintro ⟨r, hr, hu, ha, hend⟩
      refine ⟨r, hr, hu, ha, ?_⟩
      rcases hend with he | ⟨e, he, hle⟩
      · rw [he]
      · rw [he]
        simpa [ge_iff_le] using hle
  · intro r e hu ha he hlt
    simp only [isRestricted, activeRestriction, List.find?, restrictionInEffect,
      hu, ha, he]
    have : ¬ (e ≥ now) := by omega
    simp [this]

/-- Witness for C7: user 4's only restriction is a temporary ban that expired
at 50 and is still flagged active; at query time 100 the account is not
restricted, while at time 40 the same data does restrict it. -/
theorem restriction_in_effect_iff_witness :
    isRestricted [expiredBanFix] 4 100 = false ∧
    isRestricted [expiredBanFix] 4 40 = true :=
  ⟨(restriction_in_effect_iff [expiredBanFix] 4 100).2 expiredBanFix 50 rfl rfl rfl
      (by decide),
   (restriction_in_effect_iff [expiredBanFix] 4 40).1.mpr
      ⟨expiredBanFix, by simp, rfl, rfl, Or.inr ⟨50, rfl, by decide⟩⟩⟩

/-- Claim C4: The edit/delete/moderation authorization decision, for an actor
and a post that both exist: the owner is allowed regardless of role; an
administrator is allowed for any resource; a non-owner manager is allowed
exactly when the post's tag is among their `managedTags`; and a plain user is
never allowed over another user's post.  Stated for both authorization entry
points, `canEditOrDelete` and `checkResourcePermission`/`checkPostPermission`. -/
theorem authorization_decision_matrix
    (users : List UserRec) (posts : List PostRec) (u : UserRec) (p : PostRec)
    (hu : findUser users u.id = some u) (hp : findPost posts p.id = some p) :
    (u.id = p.user → canEditOrDelete users posts u.id p.user (some p.id) = true) ∧
    (u.role = .administrator →
      ∀ ownerId, canEditOrDelete users posts u.id ownerId (some p.id) = true) ∧
    (u.role = .manager → u.id ≠ p.user →
      canEditOrDelete users posts u.id p.user (some p.id) =
        u.managedTags.contains p.postTag) ∧
    (u.role = .user → u.id ≠ p.user →
      canEditOrDelete users posts u.id p.user (some p.id) = false) ∧
    (p.user = u.id → checkResourcePermission posts u "POST" p.id "edit" = true) ∧
    (u.role = .administrator → checkResourcePermission posts u "POST" p.id "edit" = true) ∧
    (u.role = .manager → p.user ≠ u.id →
      checkResourcePermission posts u "POST" p.id "edit" =
        u.managedTags.contains p.postTag) ∧
    (u.role = .user → p.user ≠ u.id →
      checkResourcePermission posts u "POST" p.id "edit" = false) := by
  refine ⟨?_, ?_, ?_, ?_, ?_, ?_, ?_, ?_⟩
  · intro hown
    simp only [canEditOrDelete, hu]
    rw [if_pos hown]
  · intro hadm ownerId
    simp only [canEditOrDelete, hu, hadm]
    split <;> simp
  · intro hmgr hnown
    simp [canEditOrDelete, hu, hmgr, hnown, canModeratePost, hp]
  · intro husr hnown
    simp [canEditOrDelete, hu, husr, hnown]
  · intro hown
    cases hr : u.role with
    | administrator => simp [checkResourcePermission, hr]
    | manager => simp [checkResourcePermission, checkPostPermission, hr, hp, hown]
    | user => simp [checkResourcePermission, checkPostPermission, hr, hp, hown]
  · intro hadm
    simp [checkResourcePermission, hadm]
  · intro hmgr hnown
    simp [checkResourcePermission, checkPostPermission, hmgr, hp, hnown]
  · intro husr hnown
    simp [checkResourcePermission, checkPostPermission, husr, hp, hnown]

/-- Witness for C4: in the fixture store, the `Food` manager (not the owner)
may act on the `Food` post through both entry points, and the plain user may
not. -/
theorem authorization_decision_matrix_witness :
    canEditOrDelete [mgrFix, adminFix, plainFix] [foodPostFix] 2 3 (some 1) =
      ([ "Food" ].contains "Food") ∧
    canEditOrDelete [mgrFix, adminFix, plainFix] [foodPostFix] 7 3 (some 1) = false ∧
    checkResourcePermission [foodPostFix] plainFix "POST" 1 "edit" = false :=
  ⟨(authorization_decision_matrix [mgrFix, adminFix, plainFix] [foodPostFix]
      mgrFix foodPostFix rfl rfl).2.2.1 rfl (by decide),
   (authorization_decision_matrix [mgrFix, adminFix, plainFix] [foodPostFix]
      plainFix foodPostFix rfl rfl).2.2.2.1 rfl (by decide),
   (authorization_decision_matrix [mgrFix, adminFix, plainFix] [foodPostFix]
      plainFix foodPostFix rfl rfl).2.2.2.2.2.2.2 rfl (by decide)⟩

/-- Helper: a `findByIdAndUpdate` (modelled as `updateReport`) is visible to a
subsequent `findById` of the same id, provided the update keeps the id. -/
theorem findReport_updateReport (rs : List ReportRec) (rid : Nat)
    (f : ReportRec → ReportRec) (hf : ∀ x, (f x).id = x.id) (r : ReportRec)
    (h : findReport rs rid = some r) :
    findReport (updateReport rs rid f) rid = some (f r) := by
  induction rs with
  | nil => simp [findReport] at h
  | cons x xs ih =>
    cases hx : (x.id == rid) with
    | true =>
      have hfx : ((f x).id == rid) = true := by
        rw [beq_iff_eq] at hx ⊢
        rw [hf x]
        exact hx
      simp only [findReport, List.find?, hx] at h
      injection h with h
      subst h
      simp only [findReport, updateReport, List.map_cons, if_pos hx,
        List.find?, hfx]
    | false =>
      simp only [findReport, List.find?, hx] at h
      simp only [findReport, updateReport, List.map_cons, hx, if_neg,
        Bool.false_eq_true, not_false_eq_true, List.find?, reduceIte]
      exact ih h

/-- Claim C3, counterexample: In a store where user 4's only report on post 1 is
already `resolved` (a terminal status), the claim predicts a fresh filing by
user 4 succeeds and creates a `pending` report; the code instead rejects it
(the duplicate query has no status filter) and creates nothing. -/
theorem fileReport_rejects_after_terminal :
    reportResolvedFix.status = .resolved ∧
    (fileReport stResolvedFix 1 4 "spam" "again" 50).2 =
      .jsonError "You have already reported this post" ∧
    (fileReport stResolvedFix 1 4 "spam" "again" 50).1.reports =
      stResolvedFix.reports := by
  refine ⟨rfl, rfl, rfl⟩

/-- Claim C3, amended: Filing a report on an existing post is rejected exactly
when *any* earlier report by the same reporter on the same content exists —
whatever its status, terminal or not (the rejection is a JSON error body, and
the store is untouched); only when no such report exists does the filing
succeed and append a report with default status `pending`. -/
theorem fileReport_duplicate_policy (st : St) (postId userId : Nat)
    (reason description : String) (now : Int) (post : PostRec)
    (hp : findPost st.posts postId = some post) :
    ((∃ r ∈ st.reports, r.post = postId ∧ r.reportedBy = userId) →
      fileReport st postId userId reason description now =
        (st, .jsonError "You have already reported this post")) ∧
    ((∀ r ∈ st.reports, ¬ (r.post = postId ∧ r.reportedBy = userId)) →
      (fileReport st postId userId reason description now).2 = .ok ∧
      (fileReport st postId userId reason description now).1.reports =
        st.reports ++
          [{ id := freshId st.reports
             post := postId
             reportedBy := userId
             reason := reason
             description := description
             status := .pending
             createdAt := now }]) := by
  constructor
  · rintro ⟨r, hr, hpost, hby⟩
    simp only [fileReport, hp]
    cases hfind : st.reports.find? (fun r => r.post == postId && r.reportedBy == userId) with
    | some q => rfl
    | none =>
      rw [List.find?_eq_none] at hfind
      exact absurd (by simp [hpost, hby]) (hfind r hr)
  · intro hnone
    have hfind : st.reports.find? (fun r => r.post == postId && r.reportedBy == userId) = none := by
      rw [List.find?_eq_none]
      intro r hr
      simp only [Bool.and_eq_true, beq_iff_eq]
      exact hnone r hr
    simp [fileReport, hp, hfind]

/-- Witness for C3 amended: with no prior report by user 5, filing appends a
pending report; with user 4's resolved report present, re-filing is rejected. -/
theorem fileReport_duplicate_policy_witness :
    (fileReport stResolvedFix 1 5 "spam" "dd" 50).2 = .ok ∧
    fileReport stResolvedFix 1 4 "spam" "dd" 50 =
      (stResolvedFix, .jsonError "You have already reported this post") :=
  ⟨((fileReport_duplicate_policy stResolvedFix 1 5 "spam" "dd" 50 foodPostFix rfl).2
      (by decide)).1,
   (fileReport_duplicate_policy stResolvedFix 1 4 "spam" "dd" 50 foodPostFix rfl).1
      ⟨reportResolvedFix, by simp [stResolvedFix], rfl, rfl⟩⟩

/-- Claim C6, counterexample: A concrete execution in which a Forbidden response
is sent on a moderation path with no audit record: the plain user (id 7) hits
the `requireRole(['manager','administrator'])` gate, receives a 403, and the
middleware's list of audit writes is empty. -/
theorem requireRole_denial_unlogged :
    requireRole [mgrFix, adminFix, plainFix] (some 7) [.manager, .administrator] =
      (.denied 403, []) := by
  rfl

/-- Claim C6, amended: Authorization denials are audited only on the
`checkAccess` path of the auth middleware: `checkAccess` writes an
`ACCESS_DENIED` activity-log row (with the actor id, or null when
unauthenticated) before returning an unauthenticated or insufficient-role
denial.  The moderation routes do not: their `requireRole` middleware never
writes an audit row on any branch, and the `handle` tag-delegation check
returns its 403 with the store — including the activity log — unchanged. -/
theorem denial_audit_policy :
    (∀ (users : List UserRec) (session : Option Nat) (roles : List Role),
      (requireRole users session roles).2 = []) ∧
    (∀ (st : St) (reportId sessionUserId : Nat) (action notes : String)
        (hours : Option Int) (now : Int) (report : ReportRec) (post : PostRec)
        (manager : UserRec),
      action ≠ "" → notes ≠ "" →
      findReport st.reports reportId = some report →
      findPost st.posts report.post = some post →
      findUser st.users sessionUserId = some manager →
      manager.role = .manager →
      manager.managedTags.contains post.postTag = false →
      handle st reportId sessionUserId action notes hours now = (st, .forbidden)) ∧
    (∀ (users : List UserRec) (posts : List PostRec) (uid : Nat) (u : UserRec)
        (requiredRole : Role) (resource : Option (String × Nat)),
      findUser users uid = some u →
      checkRole u.role requiredRole = false →
      checkAccess users posts (some uid) (some requiredRole) resource =
        (.denied "INSUFFICIENT_ROLE", [⟨some uid, "ACCESS_DENIED"⟩])) ∧
    (∀ (users : List UserRec) (posts : List PostRec) (requiredRole : Option Role)
        (resource : Option (String × Nat)),
      checkAccess users posts none requiredRole resource =
        (.denied "NOT_AUTHENTICATED", [⟨none, "ACCESS_DENIED"⟩])) := by
  refine ⟨?_, ?_, ?_, ?_⟩
  · intro users session roles
    cases session with
    | none => rfl
    | some uid =>
      simp only [requireRole]
      cases findUser users uid with
      | none => rfl
      | some u => by_cases hc : u.role ∈ roles <;> simp [hc]
  · intro st reportId sessionUserId action notes hours now report post manager
      ha hn hrep hpost hmgr hrole htag
    simp only [handle, hrep, hpost, hmgr]
    rw [if_neg (by simp [ha, hn]), if_pos ⟨hrole, by simpa using htag⟩]
  · intro users posts uid u requiredRole resource hu hrole
    simp [checkAccess, hu, hrole]
  · intro users posts requiredRole resource
    rfl

/-- Witness for C6 amended: the plain user denied by `requireRole` generates
no log row; the same user denied by `checkAccess` for the `manager` role
generates an `ACCESS_DENIED` row; the `Food` manager's `handle` call on a
`Travel` post is a 403 that leaves the store untouched. -/
theorem denial_audit_policy_witness :
    (requireRole [mgrFix, adminFix, plainFix] (some 7)
      [.manager, .administrator]).2 = [] ∧
    checkAccess [mgrFix, adminFix, plainFix] [foodPostFix] (some 7) (some .manager)
      none = (.denied "INSUFFICIENT_ROLE", [⟨some 7, "ACCESS_DENIED"⟩]) ∧
    handle { stPendingFix with posts := [{ foodPostFix with postTag := "Travel" }] }
      1 2 "dismiss" "n" none 1000 =
      ({ stPendingFix with posts := [{ foodPostFix with postTag := "Travel" }] },
        .forbidden) :=
  ⟨denial_audit_policy.1 [mgrFix, adminFix, plainFix] (some 7)
      [.manager, .administrator],
   denial_audit_policy.2.2.1 [mgrFix, adminFix, plainFix] [foodPostFix] 7 plainFix
      .manager none rfl rfl,
   denial_audit_policy.2.1
      { stPendingFix with posts := [{ foodPostFix with postTag := "Travel" }] }
      1 2 "dismiss" "n" none 1000 reportPendingFix
      { foodPostFix with postTag := "Travel" } mgrFix
      (by decide) (by decide) rfl rfl rfl rfl (by decide)⟩

/-- Claim C1, counterexample: The `Food` manager (id 2) handles the pending
report with `restrict_user` and `hours = 72`: the claim predicts rejection
with no Restriction created, but the call succeeds, a `temporary_ban` IS
created — with its duration silently clamped to 48 hours
(`endDate = 1000 + 48·3600000 = 172801000`) — and the report is resolved. -/
theorem handle_restrict_over_cap_clamps :
    (handle stPendingFix 1 2 "restrict_user" "bad" (some 72) 1000).2 = .ok ∧
    (handle stPendingFix 1 2 "restrict_user" "bad" (some 72) 1000).1.restrictions =
      [{ user := 3, restrictedBy := 2, restrictionType := .temporary_ban,
         reason := "bad", startDate := 1000, endDate := some 172801000,
         isActive := true }] ∧
    (findReport (handle stPendingFix 1 2 "restrict_user" "bad" (some 72)
        1000).1.reports 1).map (fun r => r.status) = some .resolved := by
  refine ⟨rfl, by decide, rfl⟩

/-- Claim C1, amended: The 48-hour cap is enforced as a rejection only on the
standalone `POST /manager/users/:userId/restrict` route (requests above 48
hours are rejected before any lookup or write).  On the report-handling
`restrict_user` path the duration is instead clamped: any positive requested
duration `h` yields a created `temporary_ban` with
`endDate = now + min h 48 hours` and a resolved report — for managers and
administrators alike.  In particular a 24-hour request ends at `now + 24`
hours.  Only the standalone admin route `POST /admin/users/:userId/restrict`
is uncapped: any positive `h` yields `endDate = now + h` hours. -/
theorem restrict_duration_cap_policy :
    (∀ (st : St) (userId : Nat) (h : Int) (reason : String)
        (sessionUserId : Nat) (now : Int),
      reason ≠ "" → h > 48 →
      managerRestrictUser st userId (some h) reason sessionUserId now =
        (st, .badRequest "Managers can only restrict users for up to 48 hours")) ∧
    (∀ (st : St) (reportId sessionUserId : Nat) (notes : String) (h now : Int)
        (report : ReportRec) (post : PostRec) (manager : UserRec),
      notes ≠ "" → 0 < h →
      findReport st.reports reportId = some report →
      findPost st.posts report.post = some post →
      findUser st.users sessionUserId = some manager →
      (manager.role = .manager → manager.managedTags.contains post.postTag = true) →
      (handle st reportId sessionUserId "restrict_user" notes (some h) now).2 = .ok ∧
      (handle st reportId sessionUserId "restrict_user" notes (some h)
          now).1.restrictions =
        st.restrictions ++
          [{ user := post.user, restrictedBy := sessionUserId,
             restrictionType := .temporary_ban, reason := notes,
             startDate := now, endDate := some (now + min h 48 * 3600000),
             isActive := true }] ∧
      findReport (handle st reportId sessionUserId "restrict_user" notes
          (some h) now).1.reports reportId =
        some { report with
               status := .resolved
               handledBy := some sessionUserId
               adminNotes := notes
               resolvedAt := some now }) ∧
    (∀ (st : St) (userId : Nat) (h : Int) (reason : String)
        (sessionUserId : Nat) (now : Int) (u : UserRec),
      reason ≠ "" → 0 < h → findUser st.users userId = some u →
      (adminRestrictUser st userId (some h) reason sessionUserId now).2 = .ok ∧
      (adminRestrictUser st userId (some h) reason sessionUserId
          now).1.restrictions =
        st.restrictions ++
          [{ user := userId, restrictedBy := sessionUserId,
             restrictionType := .temporary_ban, reason := reason,
             startDate := now, endDate := some (now + h * 3600000),
             isActive := true }]) := by
  refine ⟨?_, ?_, ?_⟩
  · intro st userId h reason sessionUserId now hr h48
    simp only [managerRestrictUser]
    rw [if_neg hr, if_neg (by omega : ¬ h ≤ 0), if_pos h48]
  · intro st reportId sessionUserId notes h now report post manager
      hn h0 hrep hpost hmgr hguard
    have hcond : ¬ (manager.role = .manager ∧
        ¬ (manager.managedTags.contains post.postTag = true)) :=
      fun hc => hc.2 (hguard hc.1)
    simp only [handle, hrep, hpost, hmgr]
    rw [if_neg (by simp [hn]), if_neg hcond, if_neg (by decide),
      if_neg (by decide), if_neg (by decide), if_pos trivial]
    rw [if_neg (by omega : ¬ h = 0), if_neg hn]
    refine ⟨rfl, rfl, ?_⟩
    exact findReport_updateReport st.reports reportId
      (fun r =>
        { r with
          status := .resolved
          handledBy := some sessionUserId
          adminNotes := notes
          resolvedAt := some now }) (fun x => rfl) report hrep
  · intro st userId h reason sessionUserId now u hr h0 hu
    simp only [adminRestrictUser, hu]
    rw [if_neg hr, if_neg (by omega : ¬ h ≤ 0), if_neg hr]
    exact ⟨rfl, rfl⟩

/-- Witness for C1 amended: the standalone manager route rejects a 72-hour
request against user 3 with nothing created; the `Food` manager's 24-hour
`restrict_user` through `handle` creates a ban ending at
`1000 + min 24 48 · 3600000` and resolves the report; the admin route accepts
72 hours uncapped. -/
theorem restrict_duration_cap_policy_witness :
    managerRestrictUser stPendingFix 3 (some 72) "r" 2 1000 =
      (stPendingFix, .badRequest "Managers can only restrict users for up to 48 hours") ∧
    (handle stPendingFix 1 2 "restrict_user" "bad" (some 24) 1000).1.restrictions =
      stPendingFix.restrictions ++
        [{ user := 3, restrictedBy := 2, restrictionType := .temporary_ban,
           reason := "bad", startDate := 1000,
           endDate := some (1000 + min 24 48 * 3600000), isActive := true }] ∧
    (adminRestrictUser stPendingFix 7 (some 72) "r" 9 1000).1.restrictions =
      stPendingFix.restrictions ++
        [{ user := 7, restrictedBy := 9, restrictionType := .temporary_ban,
           reason := "r", startDate := 1000,
           endDate := some (1000 + 72 * 3600000), isActive := true }] :=
  ⟨restrict_duration_cap_policy.1 stPendingFix 3 72 "r" 2 1000 (by decide)
      (by decide),
   (restrict_duration_cap_policy.2.1 stPendingFix 1 2 "bad" 24 1000
      reportPendingFix foodPostFix mgrFix (by decide) (by decide) rfl rfl rfl
      (fun _ => rfl)).2.1,
   (restrict_duration_cap_policy.2.2 stPendingFix 7 72 "r" 9 1000 plainFix
      (by decide) (by decide) rfl).2⟩

/-- Claim C2, counterexample: The report is already in the terminal status
`resolved`, yet handling it with `dismiss` changes its status again, to
`dismissed`: neither `handle` nor `escalate` ever reads the current status. -/
theorem handle_mutates_resolved_report :
    reportResolvedFix.status = .resolved ∧
    (findReport (handle stResolvedFix 1 2 "dismiss" "n" none 1000).1.reports
        1).map (fun r => r.status) = some .dismissed := by
  exact ⟨rfl, rfl⟩

/-- Claim C2, amended: The report operations never guard on the current status.
`escalate` with an empty reason is rejected with no mutation; with a
non-empty reason it stamps *any* found report `escalated`.  `handle`, for any
of its five actions on any found report (with its post present and the
handler tag-authorized), stamps the report `dismissed` for the `dismiss`
action and `resolved` otherwise — whatever status, terminal included, the
report had before.  From `pending` the reachable statuses are therefore only
`resolved`, `dismissed` and `escalated`, but the same transitions equally
fire from terminal statuses. -/
theorem report_transition_policy :
    (∀ (st : St) (reportId sessionUserId : Nat) (now : Int),
      escalate st reportId sessionUserId "" now =
        (st, .badRequest "Reason for escalation is required")) ∧
    (∀ (st : St) (reportId sessionUserId : Nat) (reason : String) (now : Int)
        (report : ReportRec),
      reason ≠ "" → findReport st.reports reportId = some report →
      findReport (escalate st reportId sessionUserId reason now).1.reports
          reportId =
        some { report with
               status := .escalated
               escalationReason := some reason
               escalatedBy := some sessionUserId
               escalatedAt := some now }) ∧
    (∀ (st : St) (reportId sessionUserId : Nat) (action notes : String)
        (hours : Option Int) (now : Int) (report : ReportRec) (post : PostRec)
        (manager : UserRec),
      action ∈ ["hide_post", "delete_post", "warn_user", "restrict_user", "dismiss"] →
      notes ≠ "" →
      findReport st.reports reportId = some report →
      findPost st.posts report.post = some post →
      findUser st.users sessionUserId = some manager →
      (manager.role = .manager → manager.managedTags.contains post.postTag = true) →
      findReport (handle st reportId sessionUserId action notes hours
          now).1.reports reportId =
        some { report with
               status := if action = "dismiss" then .dismissed else .resolved
               handledBy := some sessionUserId
               adminNotes := notes
               resolvedAt := some now }) := by
  refine ⟨?_, ?_, ?_⟩
  · intro st reportId sessionUserId now
    rfl
  · intro st reportId sessionUserId reason now report hr hrep
    simp only [escalate, hrep]
    rw [if_neg hr]
    exact findReport_updateReport st.reports reportId
      (fun r =>
        { r with
          status := .escalated
          escalationReason := some reason
          escalatedBy := some sessionUserId
          escalatedAt := some now }) (fun x => rfl) report hrep
  · intro st reportId sessionUserId action notes hours now report post manager
      hmem hn hrep hpost hmgr hguard
    have hcond : ¬ (manager.role = .manager ∧
        ¬ (manager.managedTags.contains post.postTag = true)) :=
      fun hc => hc.2 (hguard hc.1)
    simp only [List.mem_cons, List.not_mem_nil, or_false] at hmem
    rcases hmem with ha | ha | ha | ha | ha <;> subst ha <;>
      simp only [handle, hrep, hpost, hmgr]
    · rw [if_neg (by simp [hn]), if_neg hcond, if_pos trivial,
        if_neg (show ¬ (("hide_post" : String) = "dismiss") by decide)]
      exact findReport_updateReport st.reports reportId
        (fun r =>
        { r with
          status := .resolved
          handledBy := some sessionUserId
          adminNotes := notes
          resolvedAt := some now }) (fun x => rfl) report hrep
    · rw [if_neg (by simp [hn]), if_neg hcond, if_neg (by decide), if_pos trivial,
        if_neg (show ¬ (("delete_post" : String) = "dismiss") by decide)]
      exact findReport_updateReport st.reports reportId
        (fun r =>
        { r with
          status := .resolved
          handledBy := some sessionUserId
          adminNotes := notes
          resolvedAt := some now }) (fun x => rfl) report hrep
    · rw [if_neg (by simp [hn]), if_neg hcond, if_neg (by decide),
        if_neg (by decide), if_pos trivial,
        if_neg (show ¬ (("warn_user" : String) = "dismiss") by decide)]
      exact findReport_updateReport st.reports reportId
        (fun r =>
        { r with
          status := .resolved
          handledBy := some sessionUserId
          adminNotes := notes
          resolvedAt := some now }) (fun x => rfl) report hrep
    · rw [if_neg (by simp [hn]), if_neg hcond, if_neg (by decide),
        if_neg (by decide), if_neg (by decide), if_pos trivial,
        if_neg (show ¬ (("restrict_user" : String) = "dismiss") by decide)]
      exact findReport_updateReport st.reports reportId
        (fun r =>
        { r with
          status := .resolved
          handledBy := some sessionUserId
          adminNotes := notes
          resolvedAt := some now }) (fun x => rfl) report hrep
    · rw [if_neg (by simp [hn]), if_neg hcond, if_neg (by decide),
        if_neg (by decide), if_neg (by decide), if_neg (by decide)]
      rw [if_pos trivial, if_pos trivial]
      exact findReport_updateReport st.reports reportId
        (fun r =>
        { r with
          status := .dismissed
          handledBy := some sessionUserId
          adminNotes := notes
          resolvedAt := some now }) (fun x => rfl) report hrep

/-- Witness for C2 amended: both operations fire on the already-`resolved`
fixture report — `handle hide_post` re-stamps it `resolved` with the new
handler, and `escalate` moves it to `escalated`. -/
theorem report_transition_policy_witness :
    findReport (handle stResolvedFix 1 9 "hide_post" "n" none 7).1.reports 1 =
      some { reportResolvedFix with
             status := if "hide_post" = "dismiss" then .dismissed else .resolved
             handledBy := some 9
             adminNotes := "n"
             resolvedAt := some 7 } ∧
    findReport (escalate stResolvedFix 1 2 "take over" 7).1.reports 1 =
      some { reportResolvedFix with
             status := .escalated
             escalationReason := some "take over"
             escalatedBy := some 2
             escalatedAt := some 7 } :=
  ⟨report_transition_policy.2.2 stResolvedFix 1 9 "hide_post" "n" none 7
      reportResolvedFix foodPostFix adminFix (by decide) (by decide) rfl rfl rfl
      (fun hc => by cases hc),
   report_transition_policy.2.1 stResolvedFix 1 2 "take over" 7
      reportResolvedFix (by decide) rfl⟩

/-- Claim C8, code bug: The repository's own comment on the query —
`status: 1,  // pending first` — and the claim both intend open reports
before closed ones, but an ascending sort on the status *string* puts
`"dismissed"` (and `"escalated"`) lexicographically before `"pending"`: on a
store holding a pending report (created at 5) and a dismissed report (created
at 10), the admin listing returns the dismissed report first. -/
theorem listReports_sorts_dismissed_before_pending :
    reportPendingOld.status = .pending ∧
    reportDismissedNew.status = .dismissed ∧
    listReports stSortFix adminFix = [reportDismissedNew, reportPendingOld] := by
  refine ⟨rfl, rfl, by decide⟩

end Mco
